import Mathlib

set_option maxHeartbeats 1000000
set_option maxRecDepth 10000

namespace Gofrr

/-! Shallow embedding of the gofrr repository (src/spec.go and src/status_codes.go).
    Bytes are modelled as Nat, byte slices as List Nat, Go strings as Lean String.
    External effects (the Unix socket transport, the filesystem, the deadline clock)
    are passed in explicitly as oracles, mirroring the call sites in the source. -/

/-! ## status_codes.go -/

/-- StatusCode constant Success (iota 0) from status_codes.go. -/
def Success : Nat := 0

/-- StatusCode constant Warning (1). -/
def Warning : Nat := 1

/-- StatusCode constant ErrNoMatch (2). -/
def ErrNoMatch : Nat := 2

/-- StatusCode constant ErrAmbiguous (3). -/
def ErrAmbiguous : Nat := 3

/-- StatusCode constant ErrIncomplete (4). -/
def ErrIncomplete : Nat := 4

/-- StatusCode constant ErrExeedArgcMax (5). -/
def ErrExeedArgcMax : Nat := 5

/-- StatusCode constant ErrNothingTodo (6). -/
def ErrNothingTodo : Nat := 6

/-- StatusCode constant CompleteFullMatch (7). -/
def CompleteFullMatch : Nat := 7

/-- StatusCode constant CompleteMatch (8). -/
def CompleteMatch : Nat := 8

/-- StatusCode constant CompleteListMatch (9). -/
def CompleteListMatch : Nat := 9

/-- StatusCode constant SuccessDaemon (10). -/
def SuccessDaemon : Nat := 10

/-- StatusCode constant ErrNoFile (11). -/
def ErrNoFile : Nat := 11

/-- StatusCode constant Suspend (12). -/
def Suspend : Nat := 12

/-- StatusCode constant WarningConfigFailed (13). -/
def WarningConfigFailed : Nat := 13

/-- StatusCode constant NotMyInstance (14). -/
def NotMyInstance : Nat := 14

/-- StatusCode constant NoLevelUp (15). -/
def NoLevelUp : Nat := 15

/-- StatusCode constant ErrNoDaemon (16). -/
def ErrNoDaemon : Nat := 16

/-- The switch statement of StatusCode.String in status_codes.go. -/
def StatusCodeString : Nat → String
  | 0 => "CMD_SUCCESS"
  | 1 => "CMD_WARNING"
  | 2 => "CMD_ERR_NO_MATCH"
  | 3 => "CMD_ERR_AMBIGUOUS"
  | 4 => "CMD_ERR_INCOMPLETE"
  | 5 => "CMD_ERR_EXEED_ARGC_MAX"
  | 6 => "CMD_ERR_NOTHING_TODO"
  | 7 => "CMD_COMPLETE_FULL_MATCH"
  | 8 => "CMD_COMPLETE_MATCH"
  | 9 => "CMD_COMPLETE_LIST_MATCH"
  | 10 => "CMD_SUCCESS_DAEMON"
  | 11 => "CMD_ERR_NO_FILE"
  | 12 => "CMD_SUSPEND"
  | 13 => "CMD_WARNING_CONFIG_FAILED"
  | 14 => "CMD_NOT_MY_INSTANCE"
  | 15 => "CMD_NO_LEVEL_UP"
  | 16 => "CMD_ERR_NO_DAEMON"
  | _ => "unknown status code"

/-! ## spec.go: response framing (readResponse) -/

/-- The termination marker from spec.go: three null bytes. -/
def terminationMarker : List Nat := [0, 0, 0]

/-- Total length of the technical trailer (3 marker bytes plus 1 status byte). -/
def techDataTotalLen : Nat := 4

/-- Whether a byte list starts with the 3-zero termination marker. -/
def startsWithMarker : List Nat → Bool
  | a :: b :: c :: _ => a == 0 && b == 0 && c == 0
  | _ => false

/-- Index of the first occurrence of the termination marker, as computed by
    bytes.Index(response, terminationMarker) in spec.go; none models index -1. -/
def bytesIndex : List Nat → Option Nat
  | [] => none
  | a :: rest =>
    if startsWithMarker (a :: rest) then some 0
    else (bytesIndex rest).map (fun i => i + 1)

/-- Whether the 3-zero marker occurs anywhere in the list. -/
def hasTripleZero : List Nat → Bool
  | [] => false
  | a :: rest => startsWithMarker (a :: rest) || hasTripleZero rest

/-- The socketResponse struct from spec.go. A transport read error is an err value;
    the model uses the fixed text "read error" since the claims never inspect the
    transport error text itself. -/
structure SocketResp where
  plainText : List Nat
  statusCode : Nat
  err : Option String
  deriving DecidableEq, Repr

/-- The accumulation loop of Connection.readResponse in spec.go. The transport is
    modelled as the list of byte chunks successive conn.Read calls deliver; when the
    chunks run out the next Read fails, which in the source returns the accumulated
    plaintext together with the read error. After each append the whole buffer is
    scanned for the marker, and the loop stops exactly when the distance from the
    first marker to the end of the buffer equals techDataTotalLen. -/
def readLoop : List (List Nat) → List Nat → SocketResp
  | [], buf => { plainText := buf, statusCode := 0, err := some "read error" }
  | chunk :: rest, buf =>
    let b := buf ++ chunk
    match bytesIndex b with
    | none => readLoop rest b
    | some idx =>
      if b.length - idx = techDataTotalLen then
        { plainText := b.take (b.length - techDataTotalLen)
          statusCode := b.getLastD 0
          err := none }
      else readLoop rest b

/-- Connection.readResponse of spec.go, run against a connected transport that
    delivers the given chunks. -/
def readResponseM (chunks : List (List Nat)) : SocketResp :=
  readLoop chunks []

/-! ## spec.go: Connection lifecycle and Execute -/

/-- The Connection struct of spec.go: a socket path plus the conn field, where the
    transport handle is modelled as a Nat and nil as none. -/
structure Connection where
  socketPath : String
  conn : Option Nat
  deriving DecidableEq, Repr

/-- NewConnection from spec.go: creates an unconnected Connection. -/
def NewConnection (socketPath : String) : Connection :=
  { socketPath := socketPath, conn := none }

/-- Connection.Connect from spec.go, with the outcome of net.Dialer.DialContext
    passed as an oracle: on failure the dial error is returned unchanged and the
    Connection is unmodified; on success the transport is stored. -/
def ConnectionConnect (c : Connection) (dial : Except String Nat) : Connection × Option String :=
  match dial with
  | Except.error e => (c, some e)
  | Except.ok t => ({ c with conn := some t }, none)

/-- Connection.Close from spec.go. closeErr gives the outcome of the underlying
    net.Conn.Close for each transport handle. The deferred assignment clears conn
    whether or not the underlying close failed; close failures are wrapped with
    the socket path. -/
def ConnectionClose (closeErr : Nat → Option String) (c : Connection) : Connection × Option String :=
  match c.conn with
  | none => (c, none)
  | some t =>
    ({ c with conn := none },
     match closeErr t with
     | none => none
     | some e => some ("socket connection close " ++ c.socketPath ++ ": " ++ e))

/-- Transport-level oracles consumed by one Execute call: the outcome of
    conn.SetDeadline, the outcome of conn.Write, and the chunks delivered by the
    successive conn.Read calls. -/
structure ExecEnv where
  deadlineErr : Option String
  writeErr : Option String
  chunks : List (List Nat)

/-- The error text produced when Execute is called on an unconnected Connection
    (ErrConnNotEstab wrapped with the socket path). -/
def notEstabMsg (path : String) : String :=
  "connection is not established for socket " ++ path

/-- The error text produced when the daemon returns a status outside the accepted
    set (ErrNotAcceptableStatusCode wrapped with the command, path and mnemonic). -/
def notAcceptableMsg (cmd path : String) (sc : Nat) : String :=
  "not acceptable status code, FRR command \"" ++ cmd ++ "\" on socket \"" ++ path
    ++ "\": " ++ StatusCodeString sc

/-- Connection.Execute from spec.go: nil-conn check, setDeadline, writeCommand,
    readResponse, then the status-code acceptance check taken from FRR
    vtysh_main.c (Success, Warning, SuccessDaemon). -/
def ExecuteM (env : ExecEnv) (c : Connection) (cmd : String) : List Nat × Option String :=
  match c.conn with
  | none => ([], some (notEstabMsg c.socketPath))
  | some _ =>
    match env.deadlineErr with
    | some e => ([], some ("set connection deadline " ++ c.socketPath ++ ": " ++ e))
    | none =>
      match env.writeErr with
      | some e => ([], some ("write \"" ++ cmd ++ "\" to socket \"" ++ c.socketPath ++ "\": " ++ e))
      | none =>
        let r := readResponseM env.chunks
        match r.err with
        | some e => (r.plainText, some e)
        | none =>
          if r.statusCode ≠ Success ∧ r.statusCode ≠ Warning ∧ r.statusCode ≠ SuccessDaemon then
            (r.plainText, some (notAcceptableMsg cmd c.socketPath r.statusCode))
          else
            (r.plainText, none)

/-! ## spec.go: ApplyConfig (byte-level line handling) -/

/-- Byte list of a Lean string, for Go string and byte-slice literals. -/
def strBytes (s : String) : List Nat := s.data.map Char.toNat

/-- bytes.Split on a one-byte separator, as used with the newline byte in
    ApplyConfig. Splitting the empty slice yields one empty field. -/
def splitOnByte (sep : Nat) : List Nat → List (List Nat)
  | [] => [[]]
  | b :: rest =>
    match splitOnByte sep rest with
    | [] => [[b]]
    | cur :: more => if b == sep then [] :: cur :: more else (b :: cur) :: more

/-- ASCII whitespace as recognised by bytes.TrimSpace (the config lines the
    claims concern are ASCII; the unicode cases of unicode.IsSpace do not arise
    for single bytes below 128 beyond these). -/
def isSpaceByte (b : Nat) : Bool :=
  b == 9 || b == 10 || b == 11 || b == 12 || b == 13 || b == 32

/-- bytes.TrimSpace: drop whitespace bytes from both ends. -/
def trimSpace (l : List Nat) : List Nat :=
  ((l.dropWhile isSpaceByte).reverse.dropWhile isSpaceByte).reverse

/-- Go string conversion of a byte list, used when a command is interpolated
    into an error message. -/
def bytesToString (l : List Nat) : String :=
  String.mk (l.map Char.ofNat)

/-- The error text of a failing config line in ApplyConfig. -/
def lineErrMsg (path : String) (cmd : List Nat) (e : String) : String :=
  "exec command \x27" ++ bytesToString cmd ++ "\x27 on frr socket " ++ path
    ++ " while applying config: " ++ e

/-- The error text of a failing enable, configure, exit or disable command in
    ApplyConfig. -/
def modeErrMsg (cmd : List Nat) (e : String) : String :=
  "could not run " ++ bytesToString cmd ++ " command: " ++ e

/-- The middle loop of ApplyConfig in spec.go: trim each line, skip empty lines,
    execute the rest in order, stopping at the first failure. The first component
    is the list of commands actually passed to Execute, in order. -/
def applyLines (exec : List Nat → Except String (List Nat)) (path : String) :
    List (List Nat) → List (List Nat) × Option String
  | [] => ([], none)
  | line :: rest =>
    let cmd := trimSpace line
    if cmd.isEmpty then applyLines exec path rest
    else
      match exec cmd with
      | Except.error e => ([cmd], some (lineErrMsg path cmd e))
      | Except.ok _ =>
        let p := applyLines exec path rest
        (cmd :: p.1, p.2)

/-- Connection.ApplyConfig from spec.go, with each Execute outcome given by the
    exec oracle. Returns the full ordered list of commands passed to Execute
    together with the returned error, mirroring the three phases of the source:
    enable and configure, the config lines, then exit and disable. -/
def ApplyConfigM (exec : List Nat → Except String (List Nat)) (path : String)
    (config : List Nat) : List (List Nat) × Option String :=
  match exec (strBytes "enable") with
  | Except.error e => ([strBytes "enable"], some (modeErrMsg (strBytes "enable") e))
  | Except.ok _ =>
    match exec (strBytes "configure") with
    | Except.error e =>
      ([strBytes "enable", strBytes "configure"], some (modeErrMsg (strBytes "configure") e))
    | Except.ok _ =>
      let p := applyLines exec path (splitOnByte 10 config)
      match p.2 with
      | some e => (strBytes "enable" :: strBytes "configure" :: p.1, some e)
      | none =>
        match exec (strBytes "exit") with
        | Except.error e =>
          (strBytes "enable" :: strBytes "configure" :: p.1 ++ [strBytes "exit"],
           some (modeErrMsg (strBytes "exit") e))
        | Except.ok _ =>
          match exec (strBytes "disable") with
          | Except.error e =>
            (strBytes "enable" :: strBytes "configure" :: p.1
              ++ [strBytes "exit", strBytes "disable"],
             some (modeErrMsg (strBytes "disable") e))
          | Except.ok _ =>
            (strBytes "enable" :: strBytes "configure" :: p.1
              ++ [strBytes "exit", strBytes "disable"], none)

/-- The non-empty trimmed config lines of a blob, in order: the commands the
    middle loop of ApplyConfig issues when nothing fails. -/
def configCmds (config : List Nat) : List (List Nat) :=
  ((splitOnByte 10 config).map trimSpace).filter (fun l => !(l.isEmpty))

/-! ## spec.go: Sockets -/

/-- filepath.Join for the simple run-directory and file-name case arising in
    NewSockets. -/
def filepathJoin (dir name : String) : String := dir ++ "/" ++ name

/-- Socket file name constants from spec.go. -/
def mgmtSocketName : String := "mgmtd.vty"

/-- Socket file name constant bfdd.vty. -/
def bfdSocketName : String := "bfdd.vty"

/-- Socket file name constant bgpd.vty. -/
def bgpSocketName : String := "bgpd.vty"

/-- Socket file name constant zebra.vty. -/
def zebraSocketName : String := "zebra.vty"

/-- The Sockets struct of spec.go. The allConnections slice aliases the four
    named fields in the source; here it is recovered by the allConnections
    function below, in the order the source builds the slice. -/
structure SocketsM where
  bgpConn : Connection
  bfdConn : Connection
  mgmtConn : Connection
  zebraConn : Connection
  frrConfigPath : String
  deriving DecidableEq, Repr

/-- NewSockets from spec.go. -/
def NewSockets (frrConfigPath frrRunDir : String) : SocketsM :=
  { bgpConn := NewConnection (filepathJoin frrRunDir bgpSocketName)
    bfdConn := NewConnection (filepathJoin frrRunDir bfdSocketName)
    mgmtConn := NewConnection (filepathJoin frrRunDir mgmtSocketName)
    zebraConn := NewConnection (filepathJoin frrRunDir zebraSocketName)
    frrConfigPath := frrConfigPath }

/-- The allConnections slice built in NewSockets: bgp, bfd, mgmt, zebra. -/
def allConnections (s : SocketsM) : List Connection :=
  [s.bgpConn, s.bfdConn, s.mgmtConn, s.zebraConn]

/-- Sockets.execute from spec.go: forwards to the given Connection. -/
def socketsExecute (env : ExecEnv) (conn : Connection) (cmd : String) :
    List Nat × Option String :=
  ExecuteM env conn cmd

/-- Sockets.ExecuteBFD from spec.go: the body forwards to s.mgmtConn. -/
def ExecuteBFDM (env : ExecEnv) (s : SocketsM) (cmd : String) : List Nat × Option String :=
  socketsExecute env s.mgmtConn cmd

/-- Sockets.ExecuteMgmt from spec.go. -/
def ExecuteMgmtM (env : ExecEnv) (s : SocketsM) (cmd : String) : List Nat × Option String :=
  socketsExecute env s.mgmtConn cmd

/-- errors.Join, modelled as a list of error texts where the empty list is the
    nil error. -/
def optErrList : Option String → List String
  | none => []
  | some e => [e]

/-- The loop of Sockets.Connect: connect each Connection in order, joining the
    errors, attempting every dial. -/
def connectAll : List (Connection × Except String Nat) → List Connection × List String
  | [] => ([], [])
  | (c, d) :: rest =>
    let r1 := ConnectionConnect c d
    let r2 := connectAll rest
    (r1.1 :: r2.1, optErrList r1.2 ++ r2.2)

/-- The loop of Sockets.Close: close every Connection, joining the errors. -/
def closeAll (closeErr : Nat → Option String) :
    List Connection → List Connection × List String
  | [] => ([], [])
  | c :: rest =>
    let r1 := ConnectionClose closeErr c
    let r2 := closeAll closeErr rest
    (r1.1 :: r2.1, optErrList r1.2 ++ r2.2)

/-- Sockets.Connect from spec.go: dial all four connections, joining all dial
    errors; if any failed, additionally run Sockets.Close over all of them and
    join its errors before returning. The Connection list is in allConnections
    order; dials gives each dial outcome in that order. -/
def SocketsConnectM (closeErr : Nat → Option String) (s : SocketsM)
    (dials : List (Except String Nat)) : List Connection × List String :=
  let r := connectAll ((allConnections s).zip dials)
  if r.2.isEmpty then (r.1, [])
  else
    let r2 := closeAll closeErr r.1
    (r2.1, r.2 ++ r2.2)

/-! ## spec.go: DumpRunningConfig and atomicWrite -/

/-- A flat model of the filesystem as an association list from path to content. -/
abbrev FS := List (String × String)

/-- Content of a path, none when absent. -/
def fsGet : FS → String → Option String
  | [], _ => none
  | (k, v) :: rest, p => if k == p then some v else fsGet rest p

/-- Remove a path. -/
def fsErase (fs : FS) (p : String) : FS := fs.filter (fun kv => !(kv.1 == p))

/-- os.WriteFile: create or replace a path with the given content. -/
def fsSet (fs : FS) (p v : String) : FS := (p, v) :: fsErase fs p

/-- os.Rename: move the content at src to dst. -/
def fsRename (fs : FS) (src dst : String) : FS :=
  match fsGet fs src with
  | none => fs
  | some v => fsSet (fsErase fs src) dst v

/-- atomicWrite from spec.go: write the data to path plus ".tmp", then rename the
    temporary file over the destination. The write and rename themselves are
    modelled as succeeding. -/
def atomicWrite (fs : FS) (path data : String) : FS :=
  fsRename (fsSet fs (path ++ ".tmp") data) (path ++ ".tmp") path

/-- The accumulation loop of DumpRunningConfig: for each connection in order,
    take the outcome of its ShowRunningConfig; on failure abort with a wrapped
    error, on success append the comment line built by fmt.Appendf followed by
    the response. -/
def dumpLoop : List (String × Except String String) → String → Except String String
  | [], acc => Except.ok acc
  | (path, r) :: rest, acc =>
    match r with
    | Except.error e => Except.error ("show running config, resp: , err: " ++ e)
    | Except.ok resp => dumpLoop rest (acc ++ "! " ++ path ++ "\n" ++ resp)

/-- The socket paths of the four connections in allConnections order. -/
def allPaths (s : SocketsM) : List String := (allConnections s).map Connection.socketPath

/-- Sockets.DumpRunningConfig from spec.go, with the outcome of each
    ShowRunningConfig call passed in allConnections order. Returns the resulting
    filesystem and the returned error: on any query failure the filesystem is
    returned untouched, otherwise the merged buffer is atomically written to
    dstFile. -/
def DumpRunningConfigM (s : SocketsM) (rs : List (Except String String)) (fs : FS)
    (dstFile : String) : FS × Except String Unit :=
  match dumpLoop ((allPaths s).zip rs) "" with
  | Except.error e => (fs, Except.error e)
  | Except.ok content => (atomicWrite fs dstFile content, Except.ok ())

/-! ## Theorems -/

/-- Helper: startsWithMarker inspects exactly the first three bytes. -/
theorem swm_cons3 (a b c : Nat) (r : List Nat) :
    startsWithMarker (a :: b :: c :: r) = (a == 0 && b == 0 && c == 0) := rfl

/-- Helper: the empty list does not start with the marker. -/
theorem swm_nil : startsWithMarker [] = false := rfl

/-- Helper: a one-byte list does not start with the marker. -/
theorem swm_one (a : Nat) : startsWithMarker [a] = false := rfl

/-- Helper: a two-byte list does not start with the marker. -/
theorem swm_two (a b : Nat) : startsWithMarker [a, b] = false := rfl

/-- Helper: one-step unfolding of hasTripleZero. -/
theorem htz_cons (a : Nat) (l : List Nat) :
    hasTripleZero (a :: l) = (startsWithMarker (a :: l) || hasTripleZero l) := rfl

/-- Helper: one-step unfolding of bytesIndex. -/
theorem bytesIndex_cons (a : Nat) (l : List Nat) :
    bytesIndex (a :: l) =
      if startsWithMarker (a :: l) then some 0
      else (bytesIndex l).map (fun i => i + 1) := rfl

/-- Helper: in a buffer without the marker, bytes.Index finds nothing. -/
theorem bytesIndex_eq_none (l : List Nat) (h : hasTripleZero l = false) :
    bytesIndex l = none := by
  induction l with
  | nil => rfl
  | cons a rest ih =>
    rw [htz_cons, Bool.or_eq_false_iff] at h
    rw [bytesIndex_cons, h.1, if_neg (by simp), ih h.2]
    rfl

/-- Helper: starting with the marker is preserved by extending the list. -/
theorem swm_append (l l2 : List Nat) (h : startsWithMarker l = true) :
    startsWithMarker (l ++ l2) = true := by
  rcases l with _ | ⟨a, _ | ⟨b, _ | ⟨c, r⟩⟩⟩
  · rw [swm_nil] at h; exact Bool.noConfusion h
  · rw [swm_one] at h; exact Bool.noConfusion h
  · rw [swm_two] at h; exact Bool.noConfusion h
  · simpa [swm_cons3] using h

/-- Helper: containing the marker is preserved by extending the list. -/
theorem htz_append_true (l1 l2 : List Nat) (h : hasTripleZero l1 = true) :
    hasTripleZero (l1 ++ l2) = true := by
  induction l1 with
  | nil => rw [hasTripleZero] at h; exact Bool.noConfusion h
  | cons a rest ih =>
    rw [htz_cons, Bool.or_eq_true] at h
    rw [List.cons_append, htz_cons, Bool.or_eq_true]
    rcases h with h | h
    · exact Or.inl (swm_append (a :: rest) l2 h)
    · exact Or.inr (ih h)

/-- Helper: a prefix of a marker-free buffer is marker-free. -/
theorem htz_take (l : List Nat) (k : Nat) (h : hasTripleZero l = false) :
    hasTripleZero (l.take k) = false := by
  cases hk : hasTripleZero (l.take k) with
  | false => rfl
  | true =>
    exfalso
    have h2 := htz_append_true (l.take k) (l.drop k) hk
    rw [List.take_append_drop, h] at h2
    exact Bool.noConfusion h2

/-- Helper: when the payload followed by two zero bytes is still marker-free, the
    first marker occurrence in payload-plus-trailer sits exactly at the payload
    boundary, wherever the trailer is cut. -/
theorem bytesIndex_boundary (P t : List Nat) (h : hasTripleZero (P ++ [0, 0]) = false) :
    bytesIndex (P ++ 0 :: 0 :: 0 :: t) = some P.length := by
  induction P with
  | nil => simp [bytesIndex_cons, swm_cons3]
  | cons a P ih =>
    rw [List.cons_append, htz_cons, Bool.or_eq_false_iff] at h
    have hswm2 : startsWithMarker (a :: (P ++ 0 :: 0 :: 0 :: t)) = false := by
      rcases P with _ | ⟨b, _ | ⟨c, r⟩⟩
      · simpa [swm_cons3] using h.1
      · simpa [swm_cons3] using h.1
      · simpa [swm_cons3] using h.1
    rw [List.cons_append, bytesIndex_cons, hswm2, if_neg (by simp), ih h.2]
    simp

/-- Helper: a payload with no marker inside and no trailing zero byte stays
    marker-free when two zero bytes of the trailer are appended. -/
theorem htz_no_tail (P : List Nat) (h1 : hasTripleZero P = false)
    (h2 : P.getLast? ≠ some 0) :
    hasTripleZero (P ++ [0, 0]) = false := by
  induction P with
  | nil => decide
  | cons a P ih =>
    rw [htz_cons, Bool.or_eq_false_iff] at h1
    rcases P with _ | ⟨b, Q⟩
    · have ha : (a == 0) = false := by
        have hne : a ≠ 0 := by simpa using h2
        simpa using hne
      simp [htz_cons, swm_cons3, swm_two, swm_one, swm_nil, hasTripleZero, ha]
    · have h2b : (b :: Q).getLast? ≠ some 0 := by
        simpa [List.getLast?_cons_cons] using h2
      have ihr := ih h1.2 h2b
      simp only [List.cons_append] at ihr ⊢
      rw [htz_cons, Bool.or_eq_false_iff]
      refine ⟨?_, ihr⟩
      rcases Q with _ | ⟨c, R⟩
      · have hb : (b == 0) = false := by
          have hne : b ≠ 0 := by simpa using h2b
          simpa using hne
        simp [swm_cons3, hb]
      · simpa [swm_cons3] using h1.1

/-- Helper: getLastD of a buffer ending in a four-byte trailer is the last
    trailer byte. -/
theorem getLastD_append_four (P : List Nat) (a b c d e : Nat) :
    (P ++ [a, b, c, d]).getLastD e = d := by simp

/-- Helper: one-step unfolding of readLoop on a delivered chunk. -/
theorem readLoop_cons (c : List Nat) (rest : List (List Nat)) (buf : List Nat) :
    readLoop (c :: rest) buf =
      (match bytesIndex (buf ++ c) with
      | none => readLoop rest (buf ++ c)
      | some idx =>
        if (buf ++ c).length - idx = techDataTotalLen then
          { plainText := (buf ++ c).take ((buf ++ c).length - techDataTotalLen)
            statusCode := (buf ++ c).getLastD 0
            err := none }
        else readLoop rest (buf ++ c)) := rfl

/-- Helper: a chunk after which the buffer holds no marker keeps the loop reading. -/
theorem readLoop_cons_none (c : List Nat) (rest : List (List Nat)) (buf : List Nat)
    (h : bytesIndex (buf ++ c) = none) :
    readLoop (c :: rest) buf = readLoop rest (buf ++ c) := by
  rw [readLoop_cons, h]

/-- Helper: a marker found with the wrong tail distance keeps the loop reading. -/
theorem readLoop_cons_some_continue (c : List Nat) (rest : List (List Nat))
    (buf : List Nat) (idx : Nat)
    (h : bytesIndex (buf ++ c) = some idx)
    (hne : (buf ++ c).length - idx ≠ techDataTotalLen) :
    readLoop (c :: rest) buf = readLoop rest (buf ++ c) := by
  rw [readLoop_cons, h]
  exact if_neg hne

/-- Helper: a marker found exactly four bytes before the end stops the loop. -/
theorem readLoop_cons_some_done (c : List Nat) (rest : List (List Nat))
    (buf : List Nat) (idx : Nat)
    (h : bytesIndex (buf ++ c) = some idx)
    (heq : (buf ++ c).length - idx = techDataTotalLen) :
    readLoop (c :: rest) buf =
      { plainText := (buf ++ c).take ((buf ++ c).length - techDataTotalLen)
        statusCode := (buf ++ c).getLastD 0
        err := none } := by
  rw [readLoop_cons, h]
  exact if_pos heq

/-- Helper: the loop invariant of readResponse. With the accumulated buffer equal
    to the first L bytes of the encoded response and the remaining chunks
    delivering the rest, the loop terminates with exactly the payload and the
    status byte, for any payload that is marker-free even with two trailer zero
    bytes appended. -/
theorem readLoop_run (P : List Nat) (S : Nat) (hm : hasTripleZero (P ++ [0, 0]) = false)
    (chunks : List (List Nat)) :
    ∀ L : Nat, L ≤ P.length + 3 →
      chunks.flatten = (P ++ [0, 0, 0, S]).drop L →
      readLoop chunks ((P ++ [0, 0, 0, S]).take L) = ⟨P, S, none⟩ := by
  have hElen : (P ++ [0, 0, 0, S]).length = P.length + 4 := by simp
  induction chunks with
  | nil =>
    intro L hL hjoin
    exfalso
    rw [List.flatten_nil] at hjoin
    have h0 := congrArg List.length hjoin
    rw [List.length_drop, hElen] at h0
    simp at h0
    omega
  | cons c rest ih =>
    intro L hL hjoin
    rw [List.flatten_cons] at hjoin
    have hgl := congrArg List.length hjoin
    rw [List.length_append, List.length_drop, hElen] at hgl
    have hcl : L + c.length ≤ P.length + 4 := by omega
    have hbuf : (P ++ [0, 0, 0, S]).take L ++ c = (P ++ [0, 0, 0, S]).take (L + c.length) := by
      rw [List.take_add]
      congr 1
      rw [← hjoin]
      exact (List.take_left c rest.flatten).symm
    have hrest : rest.flatten = (P ++ [0, 0, 0, S]).drop (L + c.length) := by
      have hdd : (P ++ [0, 0, 0, S]).drop (L + c.length)
          = ((P ++ [0, 0, 0, S]).drop L).drop c.length := by
        rw [List.drop_drop, Nat.add_comm]
      rw [hdd, ← hjoin, List.drop_left]
    by_cases h2 : L + c.length ≤ P.length + 2
    · have hnone : bytesIndex ((P ++ [0, 0, 0, S]).take L ++ c) = none := by
        rw [hbuf]
        apply bytesIndex_eq_none
        have he : P ++ [0, 0, 0, S] = (P ++ [0, 0]) ++ [0, S] := by simp
        rw [he, List.take_append_of_le_length (by simp; omega)]
        exact htz_take _ _ hm
      rw [readLoop_cons_none c rest _ hnone, hbuf]
      exact ih (L + c.length) (by omega) hrest
    · by_cases h3 : L + c.length = P.length + 3
      · have htake3 : (P ++ [0, 0, 0, S]).take (L + c.length) = P ++ [0, 0, 0] := by
          rw [h3]
          have he : P ++ [0, 0, 0, S] = (P ++ [0, 0, 0]) ++ [S] := by simp
          have hl : P.length + 3 = (P ++ [0, 0, 0]).length := by simp
          rw [he, hl, List.take_left]
        have hidx : bytesIndex ((P ++ [0, 0, 0, S]).take L ++ c) = some P.length := by
          rw [hbuf, htake3]
          exact bytesIndex_boundary P [] hm
        have hne : ((P ++ [0, 0, 0, S]).take L ++ c).length - P.length ≠ techDataTotalLen := by
          rw [hbuf, htake3]
          simp [techDataTotalLen]
        rw [readLoop_cons_some_continue c rest _ P.length hidx hne, hbuf]
        exact ih (L + c.length) (by omega) hrest
      · have h4 : L + c.length = P.length + 4 := by omega
        have htake4 : (P ++ [0, 0, 0, S]).take (L + c.length) = P ++ [0, 0, 0, S] := by
          rw [h4, ← hElen, List.take_length]
        have hidx : bytesIndex ((P ++ [0, 0, 0, S]).take L ++ c) = some P.length := by
          rw [hbuf, htake4]
          exact bytesIndex_boundary P [S] hm
        have hdone : ((P ++ [0, 0, 0, S]).take L ++ c).length - P.length = techDataTotalLen := by
          rw [hbuf, htake4, hElen]
          simp [techDataTotalLen]
        rw [readLoop_cons_some_done c rest _ P.length hidx hdone, hbuf, htake4]
        have h5 : (P ++ [0, 0, 0, S]).length - techDataTotalLen = P.length := by
          rw [hElen]
          simp [techDataTotalLen]
        rw [h5, List.take_left, getLastD_append_four]

/-- Helper: Execute on an unconnected Connection returns the not-established
    error at once, for any transport oracles. -/
theorem executeM_of_conn_none (env : ExecEnv) (c : Connection) (cmd : String)
    (h : c.conn = none) :
    ExecuteM env c cmd = ([], some (notEstabMsg c.socketPath)) := by
  rcases c with ⟨p, conn⟩
  cases conn with
  | none => rfl
  | some t => exact Option.noConfusion h

/-- C9: for each of the 17 defined status code values 0 through 16, the mnemonic
    lookup returns the documented string, in declaration order; for every value
    outside 0 through 16 it returns the one fixed, non-empty fallback string. -/
theorem statusCodeString_spec :
    StatusCodeString Success = "CMD_SUCCESS" ∧
    StatusCodeString Warning = "CMD_WARNING" ∧
    StatusCodeString ErrNoMatch = "CMD_ERR_NO_MATCH" ∧
    StatusCodeString ErrAmbiguous = "CMD_ERR_AMBIGUOUS" ∧
    StatusCodeString ErrIncomplete = "CMD_ERR_INCOMPLETE" ∧
    StatusCodeString ErrExeedArgcMax = "CMD_ERR_EXEED_ARGC_MAX" ∧
    StatusCodeString ErrNothingTodo = "CMD_ERR_NOTHING_TODO" ∧
    StatusCodeString CompleteFullMatch = "CMD_COMPLETE_FULL_MATCH" ∧
    StatusCodeString CompleteMatch = "CMD_COMPLETE_MATCH" ∧
    StatusCodeString CompleteListMatch = "CMD_COMPLETE_LIST_MATCH" ∧
    StatusCodeString SuccessDaemon = "CMD_SUCCESS_DAEMON" ∧
    StatusCodeString ErrNoFile = "CMD_ERR_NO_FILE" ∧
    StatusCodeString Suspend = "CMD_SUSPEND" ∧
    StatusCodeString WarningConfigFailed = "CMD_WARNING_CONFIG_FAILED" ∧
    StatusCodeString NotMyInstance = "CMD_NOT_MY_INSTANCE" ∧
    StatusCodeString NoLevelUp = "CMD_NO_LEVEL_UP" ∧
    StatusCodeString ErrNoDaemon = "CMD_ERR_NO_DAEMON" ∧
    (∀ n : Nat, 16 < n → StatusCodeString n = "unknown status code") ∧
    "unknown status code" ≠ "" := by
  refine ⟨rfl, rfl, rfl, rfl, rfl, rfl, rfl, rfl, rfl, rfl, rfl, rfl, rfl, rfl, rfl,
    rfl, rfl, ?_, by decide⟩
  intro n hn
  obtain ⟨m, rfl⟩ : ∃ m, n = m + 17 := ⟨n - 17, by omega⟩
  rfl

/-- Witness for C9 at the out-of-range byte value 200. -/
theorem statusCodeString_spec_witness :
    StatusCodeString 200 = "unknown status code" :=
  statusCodeString_spec.2.2.2.2.2.2.2.2.2.2.2.2.2.2.2.2.2.1 200 (by omega)

/-- C10: after Close returns the transport field is absent whether or not the
    underlying close reported an error, an immediately following Close returns
    nil and changes nothing, and Close on a never-connected or already-closed
    Connection returns nil and changes nothing. -/
theorem connectionClose_spec (closeErr : Nat → Option String) (c : Connection) :
    (ConnectionClose closeErr c).1.conn = none ∧
    ConnectionClose closeErr (ConnectionClose closeErr c).1
      = ((ConnectionClose closeErr c).1, none) ∧
    (c.conn = none → ConnectionClose closeErr c = (c, none)) := by
  rcases c with ⟨p, conn⟩
  cases conn with
  | none => exact ⟨rfl, rfl, fun _ => rfl⟩
  | some t => exact ⟨rfl, rfl, fun h => Option.noConfusion h⟩

/-- Witness for C10 on a connected Connection whose underlying close fails. -/
theorem connectionClose_spec_witness :
    (ConnectionClose (fun _ => some "boom") { socketPath := "p", conn := some 7 }).1.conn = none ∧
    ConnectionClose (fun _ => some "boom") { socketPath := "q", conn := none }
      = ({ socketPath := "q", conn := none }, none) :=
  ⟨(connectionClose_spec (fun _ => some "boom") { socketPath := "p", conn := some 7 }).1,
   (connectionClose_spec (fun _ => some "boom") { socketPath := "q", conn := none }).2.2 rfl⟩

/-- C4: Sockets.ExecuteBFD forwards the command to the mgmt Connection, not the
    BFD Connection: its result is exactly Execute on s.mgmtConn, and when only
    the mgmt Connection is unconnected the not-established error names the mgmt
    socket path. -/
theorem executeBFD_spec (env : ExecEnv) (s : SocketsM) (cmd : String) :
    ExecuteBFDM env s cmd = ExecuteM env s.mgmtConn cmd ∧
    (s.mgmtConn.conn = none →
      ExecuteBFDM env s cmd = ([], some (notEstabMsg s.mgmtConn.socketPath))) :=
  ⟨rfl, fun h => executeM_of_conn_none env s.mgmtConn cmd h⟩

/-- Witness for C4 on a fresh Sockets value. -/
theorem executeBFD_spec_witness :
    ExecuteBFDM ⟨none, none, []⟩ (NewSockets "c" "/r") "x"
      = ([], some (notEstabMsg (NewSockets "c" "/r").mgmtConn.socketPath)) :=
  (executeBFD_spec ⟨none, none, []⟩ (NewSockets "c" "/r") "x").2 rfl

/-- C8: Execute on an unconnected Connection fails immediately with the
    not-established error naming the socket path, and its result does not depend
    on any transport oracle (no write and no read are attempted). -/
theorem execute_notConnected (env : ExecEnv) (c : Connection) (cmd : String)
    (h : c.conn = none) :
    ExecuteM env c cmd = ([], some (notEstabMsg c.socketPath)) ∧
    (∀ env2 : ExecEnv, ExecuteM env c cmd = ExecuteM env2 c cmd) := by
  refine ⟨executeM_of_conn_none env c cmd h, fun env2 => ?_⟩
  rw [executeM_of_conn_none env c cmd h, executeM_of_conn_none env2 c cmd h]

/-- Witness for C8 on a fresh Connection. -/
theorem execute_notConnected_witness :
    ExecuteM ⟨some "dl", some "wr", [[1, 2]]⟩ (NewConnection "p") "show"
      = ([], some (notEstabMsg "p")) :=
  (execute_notConnected ⟨some "dl", some "wr", [[1, 2]]⟩ (NewConnection "p") "show" rfl).1

/-- C7: when the read cycle completes cleanly with plaintext pt and status sc on
    a connected Connection, Execute rejects every status outside Success,
    Warning, SuccessDaemon with an error wrapping the mnemonic, the command and
    the socket path while still returning the plaintext, and accepts the three
    listed statuses returning the plaintext with no error. -/
theorem execute_status_spec (env : ExecEnv) (c : Connection) (t : Nat) (cmd : String)
    (pt : List Nat) (sc : Nat)
    (hconn : c.conn = some t)
    (hdl : env.deadlineErr = none) (hw : env.writeErr = none)
    (hread : readResponseM env.chunks = ⟨pt, sc, none⟩) :
    (sc ≠ Success ∧ sc ≠ Warning ∧ sc ≠ SuccessDaemon →
      ExecuteM env c cmd = (pt, some (notAcceptableMsg cmd c.socketPath sc))) ∧
    (sc = Success ∨ sc = Warning ∨ sc = SuccessDaemon →
      ExecuteM env c cmd = (pt, none)) := by
  rcases c with ⟨p, conn⟩
  rcases env with ⟨de, we, chunks⟩
  simp only at hconn hdl hw hread
  subst hconn hdl hw
  constructor
  · intro hne
    simp [ExecuteM, hread, hne.1, hne.2.1, hne.2.2]
  · intro heq
    have hno : ¬(sc ≠ Success ∧ sc ≠ Warning ∧ sc ≠ SuccessDaemon) := by
      rcases heq with h | h | h <;> simp [h]
    simp [ExecuteM, hread, hno]

/-- Witness for C7: status 2 (CMD_ERR_NO_MATCH) is rejected with the plaintext
    still returned. -/
theorem execute_status_spec_witness :
    ExecuteM ⟨none, none, [[65, 0, 0, 0, 2]]⟩ { socketPath := "p", conn := some 0 } "show"
      = ([65], some (notAcceptableMsg "show" "p" 2)) :=
  (execute_status_spec ⟨none, none, [[65, 0, 0, 0, 2]]⟩ { socketPath := "p", conn := some 0 }
    0 "show" [65] 2 rfl rfl rfl (by decide)).1 (by decide)

/-- C1 counterexample: the payload [1, 0] contains no run of three consecutive
    zero bytes, yet delivering its encoded response with status 1 one byte at a
    time makes the read cycle stop early with plaintext [1] and status 0 rather
    than ([1, 0], 1), because the trailing payload zero merges with the marker;
    and delivering the same encoded response in a single chunk instead runs to a
    read error, so the result is not chunking-independent either. -/
theorem readResponse_roundtrip_counterexample :
    hasTripleZero [1, 0] = false ∧
    [[1], [0], [0], [0], [0], [1]].flatten = [1, 0] ++ [0, 0, 0, 1] ∧
    [[1, 0, 0, 0, 0, 1]].flatten = [1, 0] ++ [0, 0, 0, 1] ∧
    readResponseM [[1], [0], [0], [0], [0], [1]] = ⟨[1], 0, none⟩ ∧
    readResponseM [[1], [0], [0], [0], [0], [1]] ≠ ⟨[1, 0], 1, none⟩ ∧
    readResponseM [[1, 0, 0, 0, 0, 1]] = ⟨[1, 0, 0, 0, 0, 1], 0, some "read error"⟩ ∧
    readResponseM [[1], [0], [0], [0], [0], [1]] ≠ readResponseM [[1, 0, 0, 0, 0, 1]] := by
  refine ⟨by decide, by decide, by decide, by decide, by decide, by decide, by decide⟩

/-- C1 as amended: for every payload P with no run of three consecutive zero
    bytes that also does not end in a zero byte, and every status byte S, every
    chunking of the encoded response P plus the trailer [0, 0, 0, S] makes the
    read/parse cycle terminate with exactly plaintext P and status S; hence the
    result is identical across all chunkings. -/
theorem readResponse_roundtrip (P : List Nat) (S : Nat)
    (h1 : hasTripleZero P = false) (h2 : P.getLast? ≠ some 0)
    (chunks : List (List Nat)) (hjoin : chunks.flatten = P ++ [0, 0, 0, S]) :
    readResponseM chunks = ⟨P, S, none⟩ := by
  have hm := htz_no_tail P h1 h2
  have h := readLoop_run P S hm chunks 0 (by omega) (by simpa using hjoin)
  simpa [readResponseM] using h

/-- Witness for the amended C1 on a three-chunk delivery. -/
theorem readResponse_roundtrip_witness :
    readResponseM [[5], [6, 0], [0, 0, 3]] = ⟨[5, 6], 3, none⟩ :=
  readResponse_roundtrip [5, 6] 3 (by decide) (by decide) [[5], [6, 0], [0, 0, 3]] (by decide)

/-- Helper: under an all-successful Execute oracle, the config-line loop issues
    exactly the non-empty trimmed lines in order and reports no error. -/
theorem applyLines_allOk (exec : List Nat → Except String (List Nat)) (path : String)
    (lines : List (List Nat)) (hok : ∀ c, ∃ r, exec c = Except.ok r) :
    applyLines exec path lines
      = ((lines.map trimSpace).filter (fun l => !(l.isEmpty)), none) := by
  induction lines with
  | nil => rfl
  | cons line rest ih =>
    cases hemp : (trimSpace line).isEmpty with
    | true => simp [applyLines, hemp, ih, List.filter_cons]
    | false =>
      obtain ⟨r, hr⟩ := hok (trimSpace line)
      simp [applyLines, hemp, hr, ih, List.filter_cons]

/-- C5: for every configuration blob, ApplyConfig splits on newline, trims each
    line, skips empty lines, and under an all-successful Execute oracle issues
    exactly enable, configure, each non-empty trimmed line in blob order, exit,
    disable, in that order, with no error. -/
theorem applyConfig_allOk (exec : List Nat → Except String (List Nat)) (path : String)
    (config : List Nat) (hok : ∀ c, ∃ r, exec c = Except.ok r) :
    ApplyConfigM exec path config
      = ([strBytes "enable", strBytes "configure"] ++ configCmds config
          ++ [strBytes "exit", strBytes "disable"], none) := by
  obtain ⟨r1, h1⟩ := hok (strBytes "enable")
  obtain ⟨r2, h2⟩ := hok (strBytes "configure")
  obtain ⟨r3, h3⟩ := hok (strBytes "exit")
  obtain ⟨r4, h4⟩ := hok (strBytes "disable")
  simp [ApplyConfigM, h1, h2, h3, h4, applyLines_allOk exec path _ hok, configCmds]

/-- Witness for C5 at the blob from the spec: the issued sequence is enable,
    configure, router bgp 65000, neighbor 10.0.0.1 remote-as 65001, exit,
    disable, and the blank line is never sent. -/
theorem applyConfig_allOk_witness :
    ApplyConfigM (fun _ => Except.ok []) "p"
      (strBytes "router bgp 65000\n neighbor 10.0.0.1 remote-as 65001\n\n")
      = ([strBytes "enable", strBytes "configure", strBytes "router bgp 65000",
          strBytes "neighbor 10.0.0.1 remote-as 65001", strBytes "exit",
          strBytes "disable"], none) :=
  (applyConfig_allOk (fun _ => Except.ok []) "p"
    (strBytes "router bgp 65000\n neighbor 10.0.0.1 remote-as 65001\n\n")
    (fun _ => ⟨[], rfl⟩)).trans (by decide)

/-- Helper: when the Execute oracle accepts all commands before some non-empty
    trimmed line bad and fails on bad, the config-line loop issues exactly the
    earlier lines followed by bad, and stops with the wrapped error naming bad. -/
theorem applyLines_firstFail (exec : List Nat → Except String (List Nat)) (path : String)
    (lines : List (List Nat)) (pre post : List (List Nat)) (bad : List Nat) (e : String)
    (hsplit : (lines.map trimSpace).filter (fun l => !(l.isEmpty)) = pre ++ bad :: post)
    (hpre : ∀ c ∈ pre, ∃ r, exec c = Except.ok r)
    (hbad : exec bad = Except.error e) :
    applyLines exec path lines = (pre ++ [bad], some (lineErrMsg path bad e)) := by
  induction lines generalizing pre with
  | nil => exact absurd hsplit (by simp)
  | cons line rest ih =>
    rw [List.map_cons, List.filter_cons] at hsplit
    cases hemp : (trimSpace line).isEmpty with
    | true =>
      rw [hemp] at hsplit
      simp only [Bool.not_true, Bool.false_eq_true, if_false] at hsplit
      simp only [applyLines, hemp]
      exact ih pre hsplit hpre
    | false =>
      rw [hemp] at hsplit
      simp only [Bool.not_false, if_true] at hsplit
      cases pre with
      | nil =>
        simp only [List.nil_append] at hsplit ⊢
        have hcmd : trimSpace line = bad := (List.cons.injEq _ _ _ _).mp hsplit |>.1
        have hempb : bad.isEmpty = false := hcmd ▸ hemp
        simp [applyLines, hcmd, hempb, hbad]
      | cons p pre2 =>
        rw [List.cons_append] at hsplit
        have hcmd : trimSpace line = p := (List.cons.injEq _ _ _ _).mp hsplit |>.1
        have hrest : (rest.map trimSpace).filter (fun l => !(l.isEmpty))
            = pre2 ++ bad :: post := (List.cons.injEq _ _ _ _).mp hsplit |>.2
        have hempp : p.isEmpty = false := hcmd ▸ hemp
        obtain ⟨r, hr⟩ := hpre p (by simp)
        have ihres := ih pre2 hrest (fun c hc => hpre c (by simp [hc]))
        simp [applyLines, hcmd, hempp, hr, ihres]

/-- C6: if the Execute of some non-empty config line fails, ApplyConfig stops at
    that command, returning the wrapped error naming it: no later config line is
    issued, and the trailing exit and disable commands are not issued. -/
theorem applyConfig_firstFail (exec : List Nat → Except String (List Nat)) (path : String)
    (config : List Nat) (pre post : List (List Nat)) (bad : List Nat) (e : String)
    (hsplit : configCmds config = pre ++ bad :: post)
    (hen : ∃ r, exec (strBytes "enable") = Except.ok r)
    (hco : ∃ r, exec (strBytes "configure") = Except.ok r)
    (hpre : ∀ c ∈ pre, ∃ r, exec c = Except.ok r)
    (hbad : exec bad = Except.error e) :
    ApplyConfigM exec path config
      = (strBytes "enable" :: strBytes "configure" :: (pre ++ [bad]),
         some (lineErrMsg path bad e)) := by
  obtain ⟨r1, h1⟩ := hen
  obtain ⟨r2, h2⟩ := hco
  have hal := applyLines_firstFail exec path (splitOnByte 10 config) pre post bad e
    hsplit hpre hbad
  simp [ApplyConfigM, h1, h2, hal]

/-- Witness for C6: the oracle fails on the line bad, so the issued sequence is
    enable, configure, bad, and neither the later line nor exit nor disable is
    issued. -/
theorem applyConfig_firstFail_witness :
    ApplyConfigM (fun c => if c = strBytes "bad" then Except.error "boom" else Except.ok [])
      "p" (strBytes "bad\nafter")
      = (strBytes "enable" :: strBytes "configure" :: ([] ++ [strBytes "bad"]),
         some (lineErrMsg "p" (strBytes "bad") "boom")) :=
  applyConfig_firstFail
    (fun c => if c = strBytes "bad" then Except.error "boom" else Except.ok [])
    "p" (strBytes "bad\nafter") [] [strBytes "after"] (strBytes "bad") "boom"
    (by decide) ⟨[], rfl⟩ ⟨[], rfl⟩
    (fun c hc => absurd hc (List.not_mem_nil c)) rfl

/-- Helper: a freshly written path reads back its content. -/
theorem fsGet_fsSet_self (fs : FS) (p v : String) : fsGet (fsSet fs p v) p = some v := by
  simp [fsSet, fsGet]

/-- Helper: after atomicWrite the destination path holds exactly the data. -/
theorem fsGet_atomicWrite_self (fs : FS) (p data : String) :
    fsGet (atomicWrite fs p data) p = some data := by
  unfold atomicWrite fsRename
  rw [fsGet_fsSet_self]
  exact fsGet_fsSet_self _ _ _

/-- Helper: the dump accumulation loop fails whenever any query outcome in the
    list is a failure. -/
theorem dumpLoop_error (l : List (String × Except String String)) (acc : String)
    (h : ∃ pr ∈ l, ∃ e, pr.2 = Except.error e) :
    ∃ e2, dumpLoop l acc = Except.error e2 := by
  induction l generalizing acc with
  | nil => simp at h
  | cons pr rest ih =>
    obtain ⟨q, hq, e, he⟩ := h
    rcases pr with ⟨path, r⟩
    cases r with
    | error e0 => exact ⟨_, rfl⟩
    | ok resp =>
      simp at hq
      rcases hq with rfl | hq
      · simp at he
      · exact ih _ ⟨q, hq, e, he⟩

/-- C2: with all four daemon queries succeeding, DumpRunningConfig atomically
    replaces the destination with the concatenation, in bgp, bfd, mgmt, zebra
    order, of the comment line naming each socket path followed by that
    connection's output, the replacement going through destination plus ".tmp"
    and a rename inside atomicWrite; and if any query fails, the operation
    returns the wrapped error and the filesystem, in particular any pre-existing
    destination file, is left completely unchanged. -/
theorem dumpRunningConfig_spec (s : SocketsM) (fs : FS) (dst : String) :
    (∀ c1 c2 c3 c4 : String,
      DumpRunningConfigM s [Except.ok c1, Except.ok c2, Except.ok c3, Except.ok c4] fs dst
        = (atomicWrite fs dst
            ("! " ++ s.bgpConn.socketPath ++ "\n" ++ c1
              ++ "! " ++ s.bfdConn.socketPath ++ "\n" ++ c2
              ++ "! " ++ s.mgmtConn.socketPath ++ "\n" ++ c3
              ++ "! " ++ s.zebraConn.socketPath ++ "\n" ++ c4), Except.ok ())
      ∧ fsGet (DumpRunningConfigM s
            [Except.ok c1, Except.ok c2, Except.ok c3, Except.ok c4] fs dst).1 dst
          = some ("! " ++ s.bgpConn.socketPath ++ "\n" ++ c1
              ++ "! " ++ s.bfdConn.socketPath ++ "\n" ++ c2
              ++ "! " ++ s.mgmtConn.socketPath ++ "\n" ++ c3
              ++ "! " ++ s.zebraConn.socketPath ++ "\n" ++ c4)) ∧
    (∀ r1 r2 r3 r4 : Except String String,
      (∃ e, Except.error e ∈ [r1, r2, r3, r4]) →
      (DumpRunningConfigM s [r1, r2, r3, r4] fs dst).1 = fs ∧
      ∃ e2, (DumpRunningConfigM s [r1, r2, r3, r4] fs dst).2 = Except.error e2) := by
  constructor
  · intro c1 c2 c3 c4
    exact ⟨rfl, fsGet_atomicWrite_self fs dst _⟩
  · intro r1 r2 r3 r4 hex
    obtain ⟨e, he⟩ := hex
    have hzipeq : (allPaths s).zip [r1, r2, r3, r4]
        = [(s.bgpConn.socketPath, r1), (s.bfdConn.socketPath, r2),
           (s.mgmtConn.socketPath, r3), (s.zebraConn.socketPath, r4)] := rfl
    have hmem : ∃ pr ∈ (allPaths s).zip [r1, r2, r3, r4], ∃ e0, pr.2 = Except.error e0 := by
      rw [hzipeq]
      simp only [List.mem_cons, List.not_mem_nil, or_false] at he
      rcases he with h | h | h | h
      · exact ⟨(s.bgpConn.socketPath, r1), by simp, e, h.symm⟩
      · exact ⟨(s.bfdConn.socketPath, r2), by simp, e, h.symm⟩
      · exact ⟨(s.mgmtConn.socketPath, r3), by simp, e, h.symm⟩
      · exact ⟨(s.zebraConn.socketPath, r4), by simp, e, h.symm⟩
    obtain ⟨e2, he2⟩ := dumpLoop_error _ "" hmem
    refine ⟨?_, e2, ?_⟩
    · simp [DumpRunningConfigM, he2]
    · simp [DumpRunningConfigM, he2]

/-- Witness for C2: four concrete outputs are merged in order with the comment
    lines, and a failing bfd query leaves a pre-existing destination unchanged. -/
theorem dumpRunningConfig_spec_witness :
    fsGet (DumpRunningConfigM (NewSockets "cfg" "/run")
        [Except.ok "B1\n", Except.ok "B2\n", Except.ok "B3\n", Except.ok "B4\n"]
        [("dst", "old")] "dst").1 "dst"
      = some ("! " ++ "/run/bgpd.vty" ++ "\n" ++ "B1\n" ++ "! " ++ "/run/bfdd.vty"
          ++ "\n" ++ "B2\n" ++ "! " ++ "/run/mgmtd.vty" ++ "\n" ++ "B3\n"
          ++ "! " ++ "/run/zebra.vty" ++ "\n" ++ "B4\n") ∧
    (DumpRunningConfigM (NewSockets "cfg" "/run")
        [Except.ok "B1\n", Except.error "boom", Except.ok "B3\n", Except.ok "B4\n"]
        [("dst", "old")] "dst").1 = [("dst", "old")] :=
  ⟨((dumpRunningConfig_spec (NewSockets "cfg" "/run") [("dst", "old")] "dst").1
      "B1\n" "B2\n" "B3\n" "B4\n").2,
   ((dumpRunningConfig_spec (NewSockets "cfg" "/run") [("dst", "old")] "dst").2
      (Except.ok "B1\n") (Except.error "boom") (Except.ok "B3\n") (Except.ok "B4\n")
      ⟨"boom", by simp⟩).1⟩

/-- Helper: after the close loop every connection in the result list is
    unconnected. -/
theorem closeAll_conn_none (closeErr : Nat → Option String) (l : List Connection) :
    ∀ c ∈ (closeAll closeErr l).1, c.conn = none := by
  induction l with
  | nil => intro c hc; simp [closeAll] at hc
  | cons c0 rest ih =>
    intro c hc
    simp only [closeAll, List.mem_cons] at hc
    rcases hc with rfl | hc
    · rcases c0 with ⟨p, conn⟩
      cases conn <;> rfl
    · exact ih c hc

/-- Helper: every dial failure in the list contributes its error to the joined
    error list of the connect loop. -/
theorem connectAll_error_mem (l : List (Connection × Except String Nat)) (e : String)
    (h : ∃ pr ∈ l, pr.2 = Except.error e) :
    e ∈ (connectAll l).2 := by
  induction l with
  | nil => simp at h
  | cons pr rest ih =>
    obtain ⟨q, hq, he⟩ := h
    rcases pr with ⟨c0, d0⟩
    simp only [List.mem_cons] at hq
    rcases hq with rfl | hq
    · simp only at he
      subst he
      simp [connectAll, ConnectionConnect, optErrList]
    · have hmem := ih ⟨q, hq, he⟩
      cases d0 <;> simp [connectAll, ConnectionConnect, optErrList, hmem]

/-- C3: if any of the four dials fails, Sockets.Connect still attempts all four,
    closes all four connections before returning so that every Connection ends
    unconnected, and the returned joined error contains every dial failure
    encountered, not only the first. -/
theorem socketsConnect_fail_spec (closeErr : Nat → Option String) (s : SocketsM)
    (d1 d2 d3 d4 : Except String Nat)
    (hfail : ∃ e, Except.error e ∈ [d1, d2, d3, d4]) :
    (∀ c ∈ (SocketsConnectM closeErr s [d1, d2, d3, d4]).1, c.conn = none) ∧
    (∀ e, Except.error e ∈ [d1, d2, d3, d4] →
      e ∈ (SocketsConnectM closeErr s [d1, d2, d3, d4]).2) := by
  have hzipeq : (allConnections s).zip [d1, d2, d3, d4]
      = [(s.bgpConn, d1), (s.bfdConn, d2), (s.mgmtConn, d3), (s.zebraConn, d4)] := rfl
  have hmemAll : ∀ e, Except.error e ∈ [d1, d2, d3, d4] →
      e ∈ (connectAll ((allConnections s).zip [d1, d2, d3, d4])).2 := by
    intro e he
    apply connectAll_error_mem
    rw [hzipeq]
    simp only [List.mem_cons, List.not_mem_nil, or_false] at he
    rcases he with h | h | h | h
    · exact ⟨(s.bgpConn, d1), by simp, h.symm⟩
    · exact ⟨(s.bfdConn, d2), by simp, h.symm⟩
    · exact ⟨(s.mgmtConn, d3), by simp, h.symm⟩
    · exact ⟨(s.zebraConn, d4), by simp, h.symm⟩
  obtain ⟨e0, he0⟩ := hfail
  have hne : ((connectAll ((allConnections s).zip [d1, d2, d3, d4])).2).isEmpty = false := by
    cases hh : ((connectAll ((allConnections s).zip [d1, d2, d3, d4])).2).isEmpty with
    | false => rfl
    | true =>
      exfalso
      have := hmemAll e0 he0
      rw [List.isEmpty_iff] at hh
      rw [hh] at this
      simp at this
  constructor
  · intro c hc
    simp only [SocketsConnectM, hne, Bool.false_eq_true, if_false] at hc
    exact closeAll_conn_none closeErr _ c hc
  · intro e he
    simp only [SocketsConnectM, hne, Bool.false_eq_true, if_false]
    exact List.mem_append_left _ (hmemAll e he)

/-- Witness for C3: with the second and fourth dials failing, both dial errors
    appear in the joined error and the zebra connection ends unconnected. -/
theorem socketsConnect_fail_spec_witness :
    "e4" ∈ (SocketsConnectM (fun _ => none) (NewSockets "c" "/r")
      [Except.ok 1, Except.error "e2", Except.ok 3, Except.error "e4"]).2 :=
  (socketsConnect_fail_spec (fun _ => none) (NewSockets "c" "/r") (Except.ok 1)
    (Except.error "e2") (Except.ok 3) (Except.error "e4")
    ⟨"e2", by simp⟩).2 "e4" (by simp)

end Gofrr
